import Mathlib

set_option maxRecDepth 2048

/-!
Shallow embedding of the s16vm 16-bit CPU simulator (Rust sources under
src/s16vm/src/). Machine integers are modelled as `Nat` with explicit
`% 2^16` (resp. `% 2^8`) where the Rust code wraps or truncates; `i8`/`i16`
values are modelled as `Int`. Fallible operations return `Except`/`Option`.
-/

namespace S16

/-! ## Flags (src/s16vm/src/cpu.rs, struct Flags) -/

/-- The four condition flags Z, N, C, V. -/
structure Flags where
  zero : Bool
  negative : Bool
  carry : Bool
  overflow : Bool
deriving DecidableEq, Repr

/-- Flags::as_u16: packs the flags as bit0=zero, bit1=carry, bit2=negative, bit3=overflow. -/
def Flags.as_u16 (f : Flags) : Nat :=
  ((cond f.zero 1 0) <<< 0) ||| ((cond f.carry 1 0) <<< 1) |||
  ((cond f.negative 1 0) <<< 2) ||| ((cond f.overflow 1 0) <<< 3)

/-- Flags::from_u16: unpacks bits 0-3, ignoring higher bits. -/
def Flags.from_u16 (value : Nat) : Flags :=
  { zero := (value &&& 0x01) != 0
    carry := (value &&& 0x02) != 0
    negative := (value &&& 0x04) != 0
    overflow := (value &&& 0x08) != 0 }

/-! ## Registers (src/s16vm/src/cpu/instructions/register.rs and the unified
enum used by cpu.rs / instructions.rs: R0-R7 plus SP, PC, FLAGS). -/

inductive Register where
  | R0 | R1 | R2 | R3 | R4 | R5 | R6 | R7 | SP | PC | FLAGS
deriving DecidableEq, Repr

/-- The enum discriminant (`reg as u16` / `reg as usize` in the Rust code):
R0..R7 are 0..7, the special registers follow. -/
def Register.idx : Register → Nat
  | .R0 => 0
  | .R1 => 1
  | .R2 => 2
  | .R3 => 3
  | .R4 => 4
  | .R5 => 5
  | .R6 => 6
  | .R7 => 7
  | .SP => 8
  | .PC => 9
  | .FLAGS => 10

/-- True for the general-purpose registers R0..R7 (the 3-bit register fields). -/
def Register.isGeneral : Register → Bool
  | .R0 | .R1 | .R2 | .R3 | .R4 | .R5 | .R6 | .R7 => true
  | .SP | .PC | .FLAGS => false

/-! ## Instruction errors (src/s16vm/src/cpu/instructions/error.rs) -/

inductive InstructionError where
  | InvalidRType (opcode funct : Nat)
  | InvalidIType (opcode : Nat)
  | InvalidJType (opcode : Nat)
  | InvalidEType (subcode : Nat)
  | InvalidRegister (id : Nat)
  | InvalidSpecialRegister (id : Nat)
deriving DecidableEq, Repr

/-- Register::new: a 3-bit register id resolves to R0..R7, anything else fails. -/
def Register.new (id : Nat) : Except InstructionError Register :=
  match id with
  | 0 => .ok .R0
  | 1 => .ok .R1
  | 2 => .ok .R2
  | 3 => .ok .R3
  | 4 => .ok .R4
  | 5 => .ok .R5
  | 6 => .ok .R6
  | 7 => .ok .R7
  | _ => .error (.InvalidRegister id)

/-! ## Memory (src/s16vm/src/cpu/memory.rs): 65536 bytes, modelled as a
function from address to stored byte. -/

def Memory : Type := Nat → Nat

/-- Memory::read_word: little-endian, fails iff `addr >= 0x10000 - 1`. -/
def Memory.read_word (m : Memory) (address : Nat) : Option Nat :=
  if address ≥ 0x10000 - 1 then none
  else
    let low := m address
    let high := m (address + 1)
    some ((high <<< 8) ||| low)

/-- Memory::write_word: little-endian, fails iff `addr >= 0x10000 - 1`.
The high byte is `(value >> 8) as u8`, i.e. truncated to 8 bits. -/
def Memory.write_word (m : Memory) (address : Nat) (value : Nat) : Option Memory :=
  if address ≥ 0x10000 - 1 then none
  else
    let low := value &&& 0x00FF
    let high := (value >>> 8) % 256
    some (fun a => if a = address then low else if a = address + 1 then high else m a)

/-- Memory::write_byte: fails iff `addr >= 0x10000`. -/
def Memory.write_byte (m : Memory) (address : Nat) (byte : Nat) : Option Memory :=
  if address ≥ 0x10000 then none
  else some (fun a => if a = address then byte else m a)

/-- Memory::get_range: `end = start as u32 + length as u32`; empty when
`end > 0xFFFF`, otherwise the slice `data[start..start+length]`. -/
def Memory.get_range (m : Memory) (start length : Nat) : List Nat :=
  if start + length > 0xFFFF then []
  else (List.range length).map (fun i => m (start + i))

/-! ## Word codec (src/s16vm/src/cpu/instructions/word.rs) -/

inductive Word where
  | RType (opcode rd rs rt funct : Nat)
  | IType (opcode rt imm : Nat)
  | JType (opcode offset : Nat)
  | EType (subcode rs rt : Nat)
deriving DecidableEq, Repr

/-- Word::new: classify a 16-bit value by its opcode nibble.
Match arms: 0x0..=0x1 R-type, 0x2..=0x8 I-type, 0x9..=0xD J-type,
0xF E-type, catch-all (i.e. 0xE) an all-zero R-type. -/
def Word.new (bits : Nat) : Word :=
  let opcode := (bits &&& 0xF000) >>> 12
  if opcode ≤ 0x1 then
    .RType opcode ((bits &&& 0x0E00) >>> 9) ((bits &&& 0x01C0) >>> 6)
      ((bits &&& 0x0038) >>> 3) (bits &&& 0x0007)
  else if opcode ≤ 0x8 then
    .IType opcode ((bits &&& 0x0E00) >>> 9) (bits &&& 0x00FF)
  else if opcode ≤ 0xD then
    .JType opcode (bits &&& 0x0FFF)
  else if opcode = 0xF then
    .EType ((bits &&& 0x0F00) >>> 8) ((bits &&& 0x00E0) >>> 5) ((bits &&& 0x001C) >>> 2)
  else
    .RType 0 0 0 0 0

/-- Word::to_bits: re-pack the fields of a layout. -/
def Word.to_bits : Word → Nat
  | .RType opcode rd rs rt funct =>
      (opcode <<< 12) ||| (rd <<< 9) ||| (rs <<< 6) ||| (rt <<< 3) ||| funct
  | .IType opcode rt imm => (opcode <<< 12) ||| (rt <<< 9) ||| imm
  | .JType opcode offset => (opcode <<< 12) ||| offset
  | .EType subcode rs rt =>
      (0xF <<< 12) ||| (subcode <<< 8) ||| (rs <<< 5) ||| (rt <<< 2)

/-! ## Signed conversions -/

/-- Reinterpret a `u16` bit pattern as an `i16` (`as i16` in Rust). -/
def u16_as_i16 (x : Nat) : Int :=
  if x % 65536 ≥ 0x8000 then (x % 65536 : Int) - 65536 else (x % 65536 : Int)

/-- src/s16vm/src/cpu/types.rs convert_12bit_to_signed: mask to 12 bits;
if bit 11 is set, OR the upper 4 bits with ones and reinterpret as i16. -/
def convert_12bit_to_signed (val : Nat) : Int :=
  let v := val &&& 0x0FFF
  if v &&& 0x0800 ≠ 0 then u16_as_i16 (v ||| 0xF000) else u16_as_i16 v

/-- Reinterpret a `u8` bit pattern as an `i8` (`imm as i8` in decode). -/
def u8_as_i8 (x : Nat) : Int :=
  if x % 256 ≥ 0x80 then (x % 256 : Int) - 256 else (x % 256 : Int)

/-- `i as u16` on an `i8`/`i16` value: two's-complement wrap into 16 bits. -/
def int_as_u16 (i : Int) : Nat := (i % 65536).toNat

/-- `u16::wrapping_add_signed` -/
def wrapping_add_signed (a : Nat) (b : Int) : Nat := (((a : Int) + b) % 65536).toNat

/-! ## Instructions (src/s16vm/src/cpu/instructions.rs) -/

inductive Jump where
  | Call | Unconditional | Zero | NotZero | GreaterThan
deriving DecidableEq, Repr

inductive Instruction where
  | Add (rd rs rt : Register)
  | Sub (rd rs rt : Register)
  | And (rd rs rt : Register)
  | Or (rd rs rt : Register)
  | Xor (rd rs rt : Register)
  | Not (rd rt : Register)
  | Sll (rd rs rt : Register)
  | Shr (rd rs rt : Register)
  | LoadIndirect (rd rs : Register)
  | StoreIndirect (rd rs : Register)
  | Cmp (rs rt : Register)
  | Return
  | Push (rs : Register)
  | Pop (rd : Register)
  | AddImmediate (rt : Register) (imm : Int)
  | AndImmediate (rt : Register) (imm : Nat)
  | OrImmediate (rt : Register) (imm : Nat)
  | LoadUperImmediate (rt : Register) (imm : Nat)
  | CmpImmediate (rt : Register) (imm : Int)
  | Load (rt : Register) (addr : Nat)
  | Store (rt : Register) (addr : Nat)
  | JumpI (jump_type : Jump) (offset : Nat)
  | MoveFromSpecial (rt spec : Register)
  | MoveFromToSpecial (rt spec : Register)
  | Nop
  | Halt
  | Sysall
deriving DecidableEq, Repr

/-- The special-register selector used by the E-type MOVS decodings. -/
def specialOf (id : Nat) : Except InstructionError Register :=
  match id with
  | 0 => .ok .PC
  | 1 => .ok .SP
  | 2 => .ok .FLAGS
  | _ => .error (.InvalidSpecialRegister id)

/-- Instruction::decode. -/
def Instruction.decode : Word → Except InstructionError Instruction
  | .RType opcode rd rs rt funct => do
      let rd ← Register.new rd
      let rs ← Register.new rs
      let rt ← Register.new rt
      match opcode, funct with
      | 0x0, 0x0 => .ok (.Add rd rs rt)
      | 0x0, 0x1 => .ok (.Sub rd rs rt)
      | 0x0, 0x2 => .ok (.And rd rs rt)
      | 0x0, 0x3 => .ok (.Or rd rs rt)
      | 0x0, 0x4 => .ok (.Xor rd rs rt)
      | 0x0, 0x5 => .ok (.Not rd rt)
      | 0x0, 0x6 => .ok (.Sll rd rs rt)
      | 0x0, 0x7 => .ok (.Shr rd rs rt)
      | 0x1, 0x0 => .ok (.LoadIndirect rd rs)
      | 0x1, 0x1 => .ok (.StoreIndirect rd rs)
      | 0x1, 0x2 => .ok (.Cmp rs rt)
      | 0x1, 0x3 => .ok .Return
      | 0x1, 0x4 => .ok (.Push rs)
      | 0x1, 0x5 => .ok (.Pop rd)
      | _, _ => .error (.InvalidRType opcode funct)
  | .IType opcode rt imm => do
      let rt ← Register.new rt
      match opcode with
      | 0x2 => .ok (.Load rt imm)
      | 0x3 => .ok (.Store rt imm)
      | 0x4 => .ok (.AddImmediate rt (u8_as_i8 imm))
      | 0x5 => .ok (.AndImmediate rt imm)
      | 0x6 => .ok (.OrImmediate rt imm)
      | 0x7 => .ok (.LoadUperImmediate rt imm)
      | 0x8 => .ok (.CmpImmediate rt (u8_as_i8 imm))
      | _ => .error (.InvalidIType opcode)
  | .JType opcode offset =>
      match opcode with
      | 0x9 => .ok (.JumpI .Call offset)
      | 0xA => .ok (.JumpI .Unconditional offset)
      | 0xB => .ok (.JumpI .Zero offset)
      | 0xC => .ok (.JumpI .NotZero offset)
      | 0xD => .ok (.JumpI .GreaterThan offset)
      | _ => .error (.InvalidJType opcode)
  | .EType subcode rs rt =>
      match subcode with
      | 0x0 => .ok .Nop
      | 0xE => .ok .Sysall
      | 0xF => .ok .Halt
      | 0x1 => do
          let spec ← specialOf rt
          let rtr ← Register.new rs
          .ok (.MoveFromSpecial rtr spec)
      | 0x2 => do
          let rtr ← Register.new rt
          let spec ← specialOf rs
          .ok (.MoveFromToSpecial rtr spec)
      | _ => .error (.InvalidEType subcode)

/-! ## CPU state and errors (src/s16vm/src/cpu.rs, cpu/error.rs) -/

inductive CpuError where
  | InvalidInstruction (w : Word) (e : InstructionError)
  | MemoryOutOfBounds (addr : Nat)
  | ProgramBoundsViolation (pc iend low high : Nat)
  | StackOverflow
  | NotImplementedYet
deriving DecidableEq, Repr

structure CPU where
  registers : Nat → Nat
  pc : Nat
  sp : Nat
  flags : Flags
  mem : Memory
  halted : Bool
  program_start : Nat
  program_end : Nat

/-- CPU::get_register. -/
def CPU.get_register (c : CPU) (reg : Register) : Nat :=
  match reg with
  | .R0 => 0
  | .R1 | .R2 | .R3 | .R4 | .R5 | .R6 | .R7 => c.registers reg.idx
  | .SP => c.sp
  | .PC => c.pc
  | .FLAGS => c.flags.as_u16

/-- CPU::set_register (R0 writes are silently discarded). -/
def CPU.set_register (c : CPU) (reg : Register) (val : Nat) : CPU :=
  match reg with
  | .R0 => c
  | .R1 | .R2 | .R3 | .R4 | .R5 | .R6 | .R7 =>
      { c with registers := fun i => if i = reg.idx then val else c.registers i }
  | .SP => { c with sp := val }
  | .PC => { c with pc := val }
  | .FLAGS => { c with flags := Flags.from_u16 val }

/-- CPU::check_overflow. -/
def check_overflow (operand_a operand_b result : Nat) (is_substraction : Bool) : Bool :=
  let a_sign := (operand_a &&& 0x8000) != 0
  let b_sign := (operand_b &&& 0x8000) != 0
  let result_sign := (result &&& 0x8000) != 0
  if is_substraction then
    (!a_sign && b_sign && result_sign) || (a_sign && !b_sign && !result_sign)
  else
    (!a_sign && !b_sign && result_sign) || (a_sign && b_sign && !result_sign)

/-- CPU::update_flags_arithmetic. -/
def CPU.update_flags_arithmetic (c : CPU) (a b result : Nat) (carry is_sub : Bool) : CPU :=
  { c with flags :=
    { zero := result == 0
      negative := (result &&& 0x8000) != 0
      carry := carry
      overflow := check_overflow a b result is_sub } }

/-- CPU::update_flags_logical. -/
def CPU.update_flags_logical (c : CPU) (result : Nat) : CPU :=
  { c with flags :=
    { zero := result == 0
      negative := (result &&& 0x8000) != 0
      carry := false
      overflow := false } }

/-- CPU::update_flags_shift. -/
def CPU.update_flags_shift (c : CPU) (result : Nat) (last_shifted_bit : Bool) : CPU :=
  { c with flags :=
    { zero := result == 0
      negative := (result &&& 0x8000) != 0
      carry := last_shifted_bit
      overflow := false } }

/-- `u16::overflowing_add`: wrapped sum and carry-out. -/
def overflowing_add (a b : Nat) : Nat × Bool :=
  ((a + b) % 65536, decide (a + b ≥ 65536))

/-- `u16::overflowing_sub`: wrapped difference and borrow, for a, b < 2^16. -/
def overflowing_sub (a b : Nat) : Nat × Bool :=
  ((a + 65536 - b) % 65536, decide (a < b))

inductive LogicalOperation where
  | And | Or | Xor | Not

inductive ShiftOperation where
  | Left | Right

/-! ## Operation handlers (src/s16vm/src/cpu.rs, impl CPU).
Handlers whose Rust bodies contain no fallible call are modelled as pure
`CPU → CPU`; the fallible ones return `Except CpuError CPU`. -/

def CPU.op_add (c : CPU) (rd rs rt : Register) : CPU :=
  let a := c.get_register rs
  let b := c.get_register rt
  let r := overflowing_add a b
  (c.set_register rd r.1).update_flags_arithmetic a b r.1 r.2 false

def CPU.op_sub (c : CPU) (rd rs rt : Register) : CPU :=
  let a := c.get_register rs
  let b := c.get_register rt
  let r := overflowing_sub a b
  (c.set_register rd r.1).update_flags_arithmetic a b r.1 r.2 true

def CPU.op_logical (c : CPU) (rd rs rt : Register) (op : LogicalOperation) : CPU :=
  let a := c.get_register rs
  let b := c.get_register rt
  let result := match op with
    | .And => a &&& b
    | .Or => a ||| b
    | .Xor => a ^^^ b
    | .Not => a ^^^ 0xFFFF
  (c.set_register rd result).update_flags_logical result

def CPU.op_shift (c : CPU) (rd rs rt : Register) (op : ShiftOperation) : CPU :=
  let value := c.get_register rs
  let s_size := c.get_register rt &&& 0xF
  if s_size = 0 then c.set_register rd value
  else
    let result := match op with
      | .Left => (value <<< s_size) % 65536
      | .Right => value >>> s_size
    let last_shifted_bit := match op with
      | .Left => ((value >>> (16 - s_size)) &&& 1) == 1
      | .Right => ((value >>> (s_size - 1)) &&& 1) == 1
    (c.set_register rd result).update_flags_shift result last_shifted_bit

def CPU.op_halt (c : CPU) : CPU := { c with halted := true }

/-- op_load_indirect: NOTE the Rust code reads at `rs as u16`, the register
index, not the register's contents. -/
def CPU.op_load_indirect (c : CPU) (rd rs : Register) : Except CpuError CPU :=
  match c.mem.read_word rs.idx with
  | none => .error (.MemoryOutOfBounds rs.idx)
  | some value => .ok (c.set_register rd value)

/-- op_store_indirect: writes to address `rs as u16`, the register index. -/
def CPU.op_store_indirect (c : CPU) (rd rs : Register) : Except CpuError CPU :=
  let value := c.get_register rd
  match c.mem.write_word rs.idx value with
  | none => .error (.MemoryOutOfBounds rs.idx)
  | some m => .ok { c with mem := m }

def CPU.op_cmp (c : CPU) (rs rt : Register) : CPU :=
  let operand_a := c.get_register rs
  let operand_b := c.get_register rt
  let r := overflowing_sub operand_a operand_b
  c.update_flags_arithmetic operand_a operand_b r.1 r.2 true

def CPU.op_push (c : CPU) (rs : Register) : Except CpuError CPU :=
  let value := c.get_register rs
  if c.sp < 2 then .error .StackOverflow
  else
    let sp' := (c.sp + 65536 - 2) % 65536
    match Memory.write_word c.mem sp' value with
    | none => .error (.MemoryOutOfBounds sp')
    | some m => .ok { c with sp := sp', mem := m }

def CPU.op_pop (c : CPU) (rd : Register) : Except CpuError CPU :=
  if c.sp > 0xFFFE then .error .StackOverflow
  else
    match c.mem.read_word c.sp with
    | none => .error (.MemoryOutOfBounds c.sp)
    | some value =>
      let c1 := c.set_register rd value
      .ok { c1 with sp := (c1.sp + 2) % 65536 }

def CPU.op_ret (c : CPU) : Except CpuError CPU := c.op_pop .PC

def CPU.op_jump (c : CPU) (jt : Jump) (offset : Nat) : Except CpuError CPU :=
  let signed_offset := convert_12bit_to_signed offset
  match jt with
  | .Call =>
      match c.op_push .PC with
      | .error e => .error e
      | .ok c1 => .ok (c1.set_register .PC (wrapping_add_signed c1.pc signed_offset))
  | .Unconditional => .ok (c.set_register .PC (wrapping_add_signed c.pc signed_offset))
  | .Zero =>
      if c.flags.zero then .ok (c.set_register .PC (wrapping_add_signed c.pc signed_offset))
      else .ok c
  | .NotZero =>
      if !c.flags.zero then .ok (c.set_register .PC (wrapping_add_signed c.pc signed_offset))
      else .ok c
  | .GreaterThan =>
      if !c.flags.zero && (c.flags.negative == c.flags.overflow) then
        .ok (c.set_register .PC (wrapping_add_signed c.pc signed_offset))
      else .ok c

def CPU.op_add_immediate (c : CPU) (rt : Register) (imm : Int) : CPU :=
  let operand_a := c.get_register rt
  let operand_b := int_as_u16 imm
  let r := overflowing_add operand_a operand_b
  (c.set_register rt r.1).update_flags_arithmetic operand_a operand_b r.1 r.2 false

def CPU.op_and_immediate (c : CPU) (rt : Register) (imm : Nat) : CPU :=
  let value := c.get_register rt
  let result := value &&& imm
  (c.set_register rt result).update_flags_logical result

/-- op_or_immediate: the Rust body (cpu.rs lines 468-477) computes
`value & imm`, the same expression as op_and_immediate. -/
def CPU.op_or_immediate (c : CPU) (rt : Register) (imm : Nat) : CPU :=
  let value := c.get_register rt
  let result := value &&& imm
  (c.set_register rt result).update_flags_logical result

def CPU.op_cmp_immediate (c : CPU) (rt : Register) (imm : Int) : CPU :=
  let operand_a := c.get_register rt
  let operand_b := int_as_u16 imm
  let r := overflowing_sub operand_a operand_b
  c.update_flags_arithmetic operand_a operand_b r.1 r.2 true

def CPU.op_load_upper_immediate (c : CPU) (rt : Register) (imm : Nat) : CPU :=
  c.set_register rt (imm <<< 8)

def CPU.op_load (c : CPU) (rt : Register) (addr : Nat) : Except CpuError CPU :=
  match c.mem.read_word addr with
  | none => .error (.MemoryOutOfBounds addr)
  | some value => .ok (c.set_register rt value)

def CPU.op_store (c : CPU) (rt : Register) (addr : Nat) : Except CpuError CPU :=
  let value := c.get_register rt
  match c.mem.write_word addr value with
  | none => .error (.MemoryOutOfBounds addr)
  | some m => .ok { c with mem := m }

def CPU.op_movs (c : CPU) (rt spec : Register) (to_special : Bool) : CPU :=
  let source := cond to_special rt spec
  let target := cond to_special spec rt
  c.set_register target (c.get_register source)

/-- CPU::execute. -/
def CPU.execute (c : CPU) : Instruction → Except CpuError CPU
  | .Add rd rs rt => .ok (c.op_add rd rs rt)
  | .Sub rd rs rt => .ok (c.op_sub rd rs rt)
  | .And rd rs rt => .ok (c.op_logical rd rs rt .And)
  | .Or rd rs rt => .ok (c.op_logical rd rs rt .Or)
  | .Xor rd rs rt => .ok (c.op_logical rd rs rt .Xor)
  | .Not rd rt => .ok (c.op_logical rd .R0 rt .Not)
  | .Sll rd rs rt => .ok (c.op_shift rd rs rt .Left)
  | .Shr rd rs rt => .ok (c.op_shift rd rs rt .Right)
  | .LoadIndirect rd rs => c.op_load_indirect rd rs
  | .StoreIndirect rd rs => c.op_store_indirect rd rs
  | .Push rs => c.op_push rs
  | .Pop rd => c.op_pop rd
  | .Cmp rs rt => .ok (c.op_cmp rs rt)
  | .JumpI jt offset => c.op_jump jt offset
  | .Return => c.op_ret
  | .AddImmediate rt imm => .ok (c.op_add_immediate rt imm)
  | .AndImmediate rt imm => .ok (c.op_and_immediate rt imm)
  | .OrImmediate rt imm => .ok (c.op_or_immediate rt imm)
  | .CmpImmediate rt imm => .ok (c.op_cmp_immediate rt imm)
  | .LoadUperImmediate rt imm => .ok (c.op_load_upper_immediate rt imm)
  | .Load rt addr => c.op_load rt addr
  | .Store rt addr => c.op_store rt addr
  | .MoveFromSpecial rt spec => .ok (c.op_movs rt spec false)
  | .MoveFromToSpecial rt spec => .ok (c.op_movs rt spec true)
  | .Nop => .ok c
  | .Halt => .ok c.op_halt
  | .Sysall => .error .NotImplementedYet

/-- CPU::secure_boundaries: `instruction_end = pc.saturating_add(2)` must
fall inside [program_start, program_end]. -/
def CPU.secure_boundaries (c : CPU) : Except CpuError Unit :=
  let instruction_end := min (c.pc + 2) 0xFFFF
  if c.pc < c.program_start ∨ instruction_end > c.program_end then
    .error (.ProgramBoundsViolation c.pc instruction_end c.program_start c.program_end)
  else .ok ()

/-- CPU::step: halt short-circuit, boundary check, fetch, decode, execute. -/
def CPU.step (c : CPU) : Except CpuError (Bool × CPU) :=
  if c.halted then .ok (false, c)
  else
    match c.secure_boundaries with
    | .error e => .error e
    | .ok _ =>
      match c.mem.read_word c.pc with
      | none => .error (.MemoryOutOfBounds c.pc)
      | some instruction_word =>
        let c1 : CPU := { c with pc := (c.pc + 2) % 65536 }
        let word := Word.new instruction_word
        match Instruction.decode word with
        | .error err => .error (.InvalidInstruction word err)
        | .ok instruction =>
          match c1.execute instruction with
          | .error e => .error e
          | .ok c2 => .ok (true, c2)

/-- The byte-writing loop of CPU::load_program: writes bytes at
`start_addr + i as u16` (u16 wrapping model). -/
def write_bytes (m : Memory) (start : Nat) : List Nat → Nat → Option Memory
  | [], _ => some m
  | b :: rest, i =>
    match m.write_byte ((start + i % 65536) % 65536) b with
    | none => none
    | some m' => write_bytes m' start rest (i + 1)

/-- CPU::load_program: sets program_start, program_end, pc, sp, then writes
the bytes. `program.len() as u16` and the additions wrap mod 2^16.
NOTE: the Rust code does not touch `halted`. -/
def CPU.load_program (c : CPU) (program : List Nat) (start_addr : Nat) : Option CPU :=
  let program_size := program.length % 65536
  let c1 : CPU :=
    { c with program_start := start_addr
             program_end := (start_addr + program_size) % 65536
             pc := start_addr
             sp := 0xFFFE }
  match write_bytes c1.mem start_addr program 0 with
  | none => none
  | some m => some { c1 with mem := m }


/-! ## Bitwise-arithmetic bridge lemmas -/

lemma and_shl_shr (w m k : Nat) : (w &&& (m <<< k)) >>> k = (w >>> k) &&& m := by
  apply Nat.eq_of_testBit_eq
  intro i
  simp [Nat.testBit_shiftRight, Nat.testBit_and, Nat.testBit_shiftLeft,
    Nat.le_add_right, Nat.add_sub_cancel_left]

lemma extract_bits (w k b : Nat) :
    (w &&& ((2 ^ b - 1) <<< k)) >>> k = w / 2 ^ k % 2 ^ b := by
  rw [and_shl_shr, Nat.and_pow_two_sub_one_eq_mod, Nat.shiftRight_eq_div_pow]

lemma lor_shl_add (a b k : Nat) (h : b < 2 ^ k) : (a <<< k) ||| b = a * 2 ^ k + b := by
  apply Nat.eq_of_testBit_eq
  intro i
  rw [Nat.testBit_or, Nat.mul_comm a (2 ^ k), Nat.testBit_mul_pow_two_add a h i]
  by_cases hik : i < k
  · simp [Nat.testBit_shiftLeft, Nat.not_le_of_lt hik, hik]
  · have hb : b.testBit i = false :=
      Nat.testBit_lt_two_pow
        (lt_of_lt_of_le h (Nat.pow_le_pow_right (by norm_num) (Nat.le_of_not_lt hik)))
    simp [Nat.testBit_shiftLeft, Nat.le_of_not_lt hik, hb, hik]

lemma and_shl (v m k : Nat) : v &&& (m <<< k) = ((v >>> k) &&& m) <<< k := by
  apply Nat.eq_of_testBit_eq
  intro i
  by_cases hik : k ≤ i
  · simp [Nat.testBit_and, Nat.testBit_shiftLeft, Nat.testBit_shiftRight, hik,
      Nat.add_sub_cancel' hik]
  · simp [Nat.testBit_and, Nat.testBit_shiftLeft, hik]

lemma ex_f000 (w : Nat) : (w &&& 0xF000) >>> 12 = w / 4096 % 16 := by
  have h := extract_bits w 12 4; norm_num at h; exact h

lemma ex_e00 (w : Nat) : (w &&& 0x0E00) >>> 9 = w / 512 % 8 := by
  have h := extract_bits w 9 3; norm_num at h; exact h

lemma ex_1c0 (w : Nat) : (w &&& 0x01C0) >>> 6 = w / 64 % 8 := by
  have h := extract_bits w 6 3; norm_num at h; exact h

lemma ex_38 (w : Nat) : (w &&& 0x0038) >>> 3 = w / 8 % 8 := by
  have h := extract_bits w 3 3; norm_num at h; exact h

lemma ex_f00 (w : Nat) : (w &&& 0x0F00) >>> 8 = w / 256 % 16 := by
  have h := extract_bits w 8 4; norm_num at h; exact h

lemma ex_e0 (w : Nat) : (w &&& 0x00E0) >>> 5 = w / 32 % 8 := by
  have h := extract_bits w 5 3; norm_num at h; exact h

lemma ex_1c (w : Nat) : (w &&& 0x001C) >>> 2 = w / 4 % 8 := by
  have h := extract_bits w 2 3; norm_num at h; exact h

lemma and_7 (w : Nat) : w &&& 0x0007 = w % 8 := by
  have h := Nat.and_pow_two_sub_one_eq_mod w 3; norm_num at h; exact h

lemma and_ff (w : Nat) : w &&& 0x00FF = w % 256 := by
  have h := Nat.and_pow_two_sub_one_eq_mod w 8; norm_num at h; exact h

lemma and_fff (w : Nat) : w &&& 0x0FFF = w % 4096 := by
  have h := Nat.and_pow_two_sub_one_eq_mod w 12; norm_num at h; exact h

lemma and_f (w : Nat) : w &&& 0xF = w % 16 := by
  have h := Nat.and_pow_two_sub_one_eq_mod w 4; norm_num at h; exact h

lemma and_one (w : Nat) : w &&& 1 = w % 2 := Nat.and_one_is_mod w

/-! ## Register-file helper lemmas -/

lemma get_set_self (c : CPU) (r : Register) (v : Nat)
    (h : r.isGeneral = true) (h0 : r ≠ .R0) :
    (c.set_register r v).get_register r = v := by
  cases r <;> simp_all [CPU.set_register, CPU.get_register, Register.idx, Register.isGeneral]

lemma set_flags_of_general (c : CPU) (r : Register) (v : Nat)
    (h : r.isGeneral = true) :
    (c.set_register r v).flags = c.flags := by
  cases r <;> simp_all [CPU.set_register, Register.isGeneral]

lemma set_sp_of_general (c : CPU) (r : Register) (v : Nat)
    (h : r.isGeneral = true) :
    (c.set_register r v).sp = c.sp := by
  cases r <;> simp_all [CPU.set_register, Register.isGeneral]

lemma set_mem (c : CPU) (r : Register) (v : Nat) :
    (c.set_register r v).mem = c.mem := by
  cases r <;> simp [CPU.set_register]

lemma get_general_of_ne (c : CPU) (r s : Register) (v : Nat)
    (hr : r.isGeneral = true) (hs : s.isGeneral = true) (hne : s ≠ r) :
    (c.set_register r v).get_register s = c.get_register s := by
  cases r <;> cases s <;>
    simp_all [CPU.set_register, CPU.get_register, Register.idx, Register.isGeneral]

/-- A concrete all-zero CPU state used by the witnesses. -/
def CPU0 : CPU :=
  { registers := fun _ => 0
    pc := 0
    sp := 0xFFFE
    flags := ⟨false, false, false, false⟩
    mem := fun _ => 0
    halted := false
    program_start := 0
    program_end := 0 }

/-! ## C1 -/

/-- C1: for every general register rt and 8-bit immediate, OrImmediate performs
the same computation as AndImmediate (`value & imm`), stores the bitwise AND of
rt's previous value with the immediate, and updates flags by the logical rule
(Zero/Negative from the result, Carry=false, Overflow=false). -/
theorem or_immediate_computes_and (c : CPU) (rt : Register) (imm : Nat)
    (h : rt.isGeneral = true) :
    c.op_or_immediate rt imm = c.op_and_immediate rt imm ∧
    (c.op_or_immediate rt imm).get_register rt = c.get_register rt &&& imm ∧
    (c.op_or_immediate rt imm).flags =
      { zero := (c.get_register rt &&& imm) == 0
        negative := ((c.get_register rt &&& imm) &&& 0x8000) != 0
        carry := false
        overflow := false } := by
  refine ⟨rfl, ?_, ?_⟩
  · cases rt <;>
      simp_all [CPU.op_or_immediate, CPU.update_flags_logical, CPU.set_register,
        CPU.get_register, Register.idx, Register.isGeneral]
  · cases rt <;>
      simp_all [CPU.op_or_immediate, CPU.update_flags_logical, CPU.set_register,
        Register.isGeneral]

theorem or_immediate_computes_and_witness :
    Register.isGeneral .R1 = true ∧
    (CPU0.op_or_immediate .R1 0x0F = CPU0.op_and_immediate .R1 0x0F ∧
     (CPU0.op_or_immediate .R1 0x0F).get_register .R1 = CPU0.get_register .R1 &&& 0x0F ∧
     (CPU0.op_or_immediate .R1 0x0F).flags =
       { zero := (CPU0.get_register .R1 &&& 0x0F) == 0
         negative := ((CPU0.get_register .R1 &&& 0x0F) &&& 0x8000) != 0
         carry := false
         overflow := false }) :=
  ⟨rfl, or_immediate_computes_and CPU0 .R1 0x0F rfl⟩


/-! ## C2: word codec round trip -/

/-- Word.new expressed with division and remainder. -/
lemma word_new_arith (w : Nat) :
    Word.new w =
      (if w / 4096 % 16 ≤ 1 then
        Word.RType (w / 4096 % 16) (w / 512 % 8) (w / 64 % 8) (w / 8 % 8) (w % 8)
      else if w / 4096 % 16 ≤ 8 then
        Word.IType (w / 4096 % 16) (w / 512 % 8) (w % 256)
      else if w / 4096 % 16 ≤ 13 then
        Word.JType (w / 4096 % 16) (w % 4096)
      else if w / 4096 % 16 = 15 then
        Word.EType (w / 256 % 16) (w / 32 % 8) (w / 4 % 8)
      else Word.RType 0 0 0 0 0) := by
  simp only [Word.new, ex_f000, ex_e00, ex_1c0, ex_38, ex_f00, ex_e0, ex_1c,
    and_7, and_ff, and_fff]

lemma to_bits_RType (o rd rs rt f : Nat)
    (h1 : rd < 8) (h2 : rs < 8) (h3 : rt < 8) (h4 : f < 8) :
    (Word.RType o rd rs rt f).to_bits = o * 4096 + rd * 512 + rs * 64 + rt * 8 + f := by
  show (o <<< 12) ||| (rd <<< 9) ||| (rs <<< 6) ||| (rt <<< 3) ||| f = _
  rw [Nat.or_assoc, Nat.or_assoc, Nat.or_assoc,
    lor_shl_add rt f 3 (by omega),
    lor_shl_add rs _ 6 (by norm_num; omega),
    lor_shl_add rd _ 9 (by norm_num; omega),
    lor_shl_add o _ 12 (by norm_num; omega)]
  ring

lemma to_bits_IType (o rt imm : Nat) (h1 : rt < 8) (h2 : imm < 512) :
    (Word.IType o rt imm).to_bits = o * 4096 + rt * 512 + imm := by
  show (o <<< 12) ||| (rt <<< 9) ||| imm = _
  rw [Nat.or_assoc,
    lor_shl_add rt imm 9 (by omega),
    lor_shl_add o _ 12 (by norm_num; omega)]
  ring

lemma to_bits_JType (o offset : Nat) (h : offset < 4096) :
    (Word.JType o offset).to_bits = o * 4096 + offset := by
  show (o <<< 12) ||| offset = _
  rw [lor_shl_add o offset 12 (by norm_num; omega)]
  ring

lemma to_bits_EType (sub rs rt : Nat) (h1 : sub < 16) (h2 : rs < 8) (h3 : rt < 8) :
    (Word.EType sub rs rt).to_bits = 15 * 4096 + sub * 256 + rs * 32 + rt * 4 := by
  show (0xF <<< 12) ||| (sub <<< 8) ||| (rs <<< 5) ||| (rt <<< 2) = _
  rw [Nat.or_assoc, Nat.or_assoc, show rt <<< 2 = rt * 4 from by rw [Nat.shiftLeft_eq],
    lor_shl_add rs _ 5 (by norm_num; omega),
    lor_shl_add sub _ 8 (by norm_num; omega),
    lor_shl_add 0xF _ 12 (by norm_num; omega)]
  ring

/-- C2 counterexample: the round trip `to_bits (Word.new w) = w` fails on
concrete 16-bit values: the 0xE opcode nibble collapses to the all-zero
R-type word, an I-type word with bit 8 set drops that bit, and an E-type
word with nonzero low 2 bits drops those bits. -/
theorem word_roundtrip_counterexample :
    Word.to_bits (Word.new 0xE123) = 0 ∧ Word.to_bits (Word.new 0xE123) ≠ 0xE123 ∧
    Word.to_bits (Word.new 0x2100) = 0x2000 ∧ Word.to_bits (Word.new 0x2100) ≠ 0x2100 ∧
    Word.to_bits (Word.new 0xF003) = 0xF000 ∧ Word.to_bits (Word.new 0xF003) ≠ 0xF003 := by
  refine ⟨by decide, by decide, by decide, by decide, by decide, by decide⟩

/-- C2 amended: for a 16-bit value w, re-encoding the decoded word is the
identity exactly when w's opcode nibble is in a declared layout range and the
bits not covered by that layout's fields are zero: always for the R-type
(0x0-0x1) and J-type (0x9-0xD) ranges, for the I-type range (0x2-0x8) iff
bit 8 is clear, and for opcode 0xF iff bits 0-1 are clear; never for
opcode 0xE. -/
theorem word_roundtrip_characterization (w : Nat) (hw : w < 65536) :
    Word.to_bits (Word.new w) = w ↔
      (w / 4096 ≤ 1 ∨ (9 ≤ w / 4096 ∧ w / 4096 ≤ 13) ∨
       (2 ≤ w / 4096 ∧ w / 4096 ≤ 8 ∧ w / 256 % 2 = 0) ∨
       (w / 4096 = 15 ∧ w % 4 = 0)) := by
  rw [word_new_arith w]
  have h16 : w / 4096 % 16 = w / 4096 := Nat.mod_eq_of_lt (by omega)
  rw [h16]
  by_cases h1 : w / 4096 ≤ 1
  · rw [if_pos h1, to_bits_RType _ _ _ _ _ (by omega) (by omega) (by omega) (by omega)]
    omega
  · rw [if_neg h1]
    by_cases h2 : w / 4096 ≤ 8
    · rw [if_pos h2, to_bits_IType _ _ _ (by omega) (by omega)]
      omega
    · rw [if_neg h2]
      by_cases h3 : w / 4096 ≤ 13
      · rw [if_pos h3, to_bits_JType _ _ (by omega)]
        omega
      · rw [if_neg h3]
        by_cases h4 : w / 4096 = 15
        · rw [if_pos h4, to_bits_EType _ _ _ (by omega) (by omega) (by omega)]
          omega
        · rw [if_neg h4, to_bits_RType _ _ _ _ _ (by omega) (by omega) (by omega) (by omega)]
          omega

theorem word_roundtrip_characterization_witness :
    (0x1234 : Nat) < 65536 ∧
    (Word.to_bits (Word.new 0x1234) = 0x1234 ↔
      ((0x1234 : Nat) / 4096 ≤ 1 ∨ (9 ≤ (0x1234 : Nat) / 4096 ∧ (0x1234 : Nat) / 4096 ≤ 13) ∨
       (2 ≤ (0x1234 : Nat) / 4096 ∧ (0x1234 : Nat) / 4096 ≤ 8 ∧ (0x1234 : Nat) / 256 % 2 = 0) ∨
       ((0x1234 : Nat) / 4096 = 15 ∧ (0x1234 : Nat) % 4 = 0))) :=
  ⟨by norm_num, word_roundtrip_characterization 0x1234 (by norm_num)⟩


/-! ## C3: load_program -/

lemma write_bytes_spec (bytes : List Nat) :
    ∀ (m : Memory) (start i : Nat), start + (i + bytes.length) ≤ 65536 →
    ∃ m', write_bytes m start bytes i = some m' ∧
      (∀ j (hj : j < bytes.length), m' (start + i + j) = bytes[j]) ∧
      (∀ a, a < start + i ∨ start + i + bytes.length ≤ a → m' a = m a) := by
  induction bytes with
  | nil =>
      intro m start i _
      exact ⟨m, rfl, fun j hj => absurd hj (by simp), fun a _ => rfl⟩
  | cons b rest ih =>
      intro m start i hbound
      simp only [List.length_cons] at hbound
      have haddr : (start + i % 65536) % 65536 = start + i := by omega
      have hwb : m.write_byte ((start + i % 65536) % 65536) b =
          some (fun a => if a = start + i then b else m a) := by
        rw [haddr]
        unfold Memory.write_byte
        rw [if_neg (by omega)]
      obtain ⟨m', hrec, hget, hframe⟩ :=
        ih (fun a => if a = start + i then b else m a) start (i + 1) (by omega)
      refine ⟨m', ?_, ?_, ?_⟩
      · unfold write_bytes
        rw [hwb]
        exact hrec
      · intro j hj
        match j with
        | 0 =>
            have h0 : m' (start + i + 0) = m' (start + i) := by ring_nf
            rw [h0, hframe (start + i) (by omega)]
            simp
        | j' + 1 =>
            have h1 : start + i + (j' + 1) = start + (i + 1) + j' := by omega
            rw [h1, hget j' (by simpa using hj)]
            simp
      · intro a ha
        simp only [List.length_cons] at ha
        rw [hframe a (by omega)]
        rw [if_neg (by omega)]

/-- C3 counterexample: load_program does not reset `halted` (loading into a
halted CPU leaves halted=true), and at the boundary start_addr + len = 0x10000
the computed program_end wraps to 0 instead of 0x10000. -/
theorem load_program_counterexample :
    (CPU.load_program { CPU0 with halted := true } [] 0).map CPU.halted = some true ∧
    (CPU.load_program CPU0 [0] 0xFFFF).map CPU.program_end = some 0 := by
  constructor
  · rfl
  · rfl

/-- C3 amended: for start_addr + len(bytes) ≤ 0xFFFF, load_program succeeds and
establishes program_start = start_addr, program_end = start_addr + len(bytes),
pc = start_addr, sp = 0xFFFE, writes the bytes at consecutive addresses, leaves
memory outside that range unchanged, and leaves `halted` (as well as the
general registers and flags) unchanged — it does not reset `halted` to false. -/
theorem load_program_spec (c : CPU) (bytes : List Nat) (start : Nat)
    (h : start + bytes.length ≤ 0xFFFF) :
    ∃ c', c.load_program bytes start = some c' ∧
      c'.program_start = start ∧
      c'.program_end = start + bytes.length ∧
      c'.pc = start ∧
      c'.sp = 0xFFFE ∧
      c'.halted = c.halted ∧
      c'.registers = c.registers ∧
      c'.flags = c.flags ∧
      (∀ j (hj : j < bytes.length), c'.mem (start + j) = bytes[j]) ∧
      (∀ a, a < start ∨ start + bytes.length ≤ a → c'.mem a = c.mem a) := by
  obtain ⟨m', hw, hget, hframe⟩ := write_bytes_spec bytes c.mem start 0 (by omega)
  have hend : (start + bytes.length % 65536) % 65536 = start + bytes.length := by omega
  refine ⟨{ c with program_start := start,
                   program_end := (start + bytes.length % 65536) % 65536,
                   pc := start, sp := 0xFFFE, mem := m' },
          ?_, rfl, hend, rfl, rfl, rfl, rfl, rfl, ?_, ?_⟩
  · simp only [CPU.load_program]
    rw [hw]
  · intro j hj
    simpa using hget j hj
  · intro a ha
    simpa using hframe a (by omega)

theorem load_program_spec_witness :
    (0x10 : Nat) + [1, 2].length ≤ 0xFFFF ∧
    (∃ c', CPU0.load_program [1, 2] 0x10 = some c' ∧
      c'.program_start = 0x10 ∧
      c'.program_end = 0x10 + [1, 2].length ∧
      c'.pc = 0x10 ∧
      c'.sp = 0xFFFE ∧
      c'.halted = CPU0.halted ∧
      c'.registers = CPU0.registers ∧
      c'.flags = CPU0.flags ∧
      (∀ j (hj : j < [1, 2].length), c'.mem (0x10 + j) = [1, 2][j]) ∧
      (∀ a, a < 0x10 ∨ 0x10 + [1, 2].length ≤ a → c'.mem a = CPU0.mem a)) :=
  ⟨by norm_num, load_program_spec CPU0 [1, 2] 0x10 (by norm_num)⟩


/-! ## C4: push / pop -/

lemma word_bytes_roundtrip (v : Nat) (h : v < 65536) :
    ((((v >>> 8) % 256) <<< 8) ||| (v &&& 255)) = v := by
  rw [and_ff, lor_shl_add _ _ 8 (by norm_num; omega), Nat.shiftRight_eq_div_pow]
  norm_num
  omega

lemma get_general_sp_update (c : CPU) (r : Register) (v : Nat)
    (h : r.isGeneral = true) :
    ({ c with sp := v } : CPU).get_register r = c.get_register r := by
  cases r <;> simp_all [CPU.get_register, Register.isGeneral]

lemma op_push_ok (c : CPU) (rs : Register) (h2 : 2 ≤ c.sp) (hsp : c.sp < 65536) :
    c.op_push rs = .ok
      { c with sp := c.sp - 2,
               mem := fun a => if a = c.sp - 2 then (c.get_register rs) &&& 0x00FF
                 else if a = c.sp - 2 + 1 then ((c.get_register rs) >>> 8) % 256
                 else c.mem a } := by
  have hsp' : (c.sp + 65536 - 2) % 65536 = c.sp - 2 := by omega
  rw [CPU.op_push]
  rw [if_neg (by omega)]
  simp only [Memory.write_word, hsp']
  rw [if_neg (by omega)]

lemma op_pop_ok (c : CPU) (rd : Register) (hsp : c.sp ≤ 0xFFFE) :
    c.op_pop rd = .ok
      { (c.set_register rd ((c.mem (c.sp + 1) <<< 8) ||| c.mem c.sp)) with
        sp := ((c.set_register rd ((c.mem (c.sp + 1) <<< 8) ||| c.mem c.sp)).sp + 2) % 65536 } := by
  simp only [CPU.op_pop, Memory.read_word]
  rw [if_neg (by omega), if_neg (by omega)]

/-- C4: Push fails with StackOverflow iff sp < 2 (the check precedes every
mutation, so the state is untouched on failure); Pop fails with StackOverflow
iff sp > 0xFFFE; and from any state with sp ≥ 2, Push rs then Pop rd (rd a
general register other than R0) succeeds, restores sp, and leaves rd holding
the value rs had before the Push. -/
theorem push_pop_spec (c : CPU) (rs rd : Register) (hsp : c.sp < 65536) :
    (c.sp < 2 → c.op_push rs = .error .StackOverflow) ∧
    (2 ≤ c.sp → ∃ c₁, c.op_push rs = .ok c₁) ∧
    (c.sp > 0xFFFE → c.op_pop rd = .error .StackOverflow) ∧
    (c.sp ≤ 0xFFFE → ∃ c₂, c.op_pop rd = .ok c₂) ∧
    (rs.isGeneral = true → rd.isGeneral = true → rd ≠ .R0 → 2 ≤ c.sp →
      c.get_register rs < 65536 →
      ∃ c₁ c₂, c.op_push rs = .ok c₁ ∧ c₁.op_pop rd = .ok c₂ ∧
        c₂.sp = c.sp ∧ c₂.get_register rd = c.get_register rs) := by
  refine ⟨?_, ?_, ?_, ?_, ?_⟩
  · intro h
    unfold CPU.op_push
    rw [if_pos h]
  · intro h
    exact ⟨_, op_push_ok c rs h hsp⟩
  · intro h
    unfold CPU.op_pop
    rw [if_pos h]
  · intro h
    exact ⟨_, op_pop_ok c rd h⟩
  · intro hrs hrd hrd0 h2 hv
    refine ⟨_, _, op_push_ok c rs h2 hsp, op_pop_ok _ rd (by omega : c.sp - 2 ≤ 65534), ?_, ?_⟩
    · rw [set_sp_of_general _ _ _ hrd]
      show (c.sp - 2 + 2) % 65536 = c.sp
      omega
    · rw [get_general_sp_update _ _ _ hrd, get_set_self _ _ _ hrd hrd0]
      show ((if c.sp - 2 + 1 = c.sp - 2 then (c.get_register rs) &&& 0x00FF
              else if c.sp - 2 + 1 = c.sp - 2 + 1 then ((c.get_register rs) >>> 8) % 256
              else c.mem (c.sp - 2 + 1)) <<< 8) |||
            (if c.sp - 2 = c.sp - 2 then (c.get_register rs) &&& 0x00FF
              else if c.sp - 2 = c.sp - 2 + 1 then ((c.get_register rs) >>> 8) % 256
              else c.mem (c.sp - 2)) = c.get_register rs
      rw [if_neg (by omega), if_pos rfl, if_pos rfl]
      exact word_bytes_roundtrip _ hv

theorem push_pop_spec_witness :
    CPU0.sp < 65536 ∧
    ((CPU0.sp < 2 → CPU0.op_push .R1 = .error .StackOverflow) ∧
     (2 ≤ CPU0.sp → ∃ c₁, CPU0.op_push .R1 = .ok c₁) ∧
     (CPU0.sp > 0xFFFE → CPU0.op_pop .R2 = .error .StackOverflow) ∧
     (CPU0.sp ≤ 0xFFFE → ∃ c₂, CPU0.op_pop .R2 = .ok c₂) ∧
     (Register.isGeneral .R1 = true → Register.isGeneral .R2 = true → .R2 ≠ Register.R0 →
       2 ≤ CPU0.sp → CPU0.get_register .R1 < 65536 →
       ∃ c₁ c₂, CPU0.op_push .R1 = .ok c₁ ∧ c₁.op_pop .R2 = .ok c₂ ∧
         c₂.sp = CPU0.sp ∧ c₂.get_register .R2 = CPU0.get_register .R1)) :=
  ⟨by norm_num [CPU0], push_pop_spec CPU0 .R1 .R2 (by norm_num [CPU0])⟩


/-! ## C5: overflow flag -/

/-- Concrete state with R1 = 0x7FFF and R2 = 1. -/
def c5a : CPU :=
  { CPU0 with registers := fun i => if i = 1 then 0x7FFF else if i = 2 then 1 else 0 }

/-- Concrete state with R1 = 0 and R2 = 1. -/
def c5b : CPU := { CPU0 with registers := fun i => if i = 2 then 1 else 0 }

/-- C5: Add/AddImmediate set Overflow iff the operands' sign bits are equal and
differ from the result's sign bit; Sub/Compare/CompareImmediate set Overflow iff
(¬a_sign ∧ b_sign ∧ r_sign) ∨ (a_sign ∧ ¬b_sign ∧ ¬r_sign); and the concrete
table rows 0x7FFF + 0x0001 and 0x0000 - 0x0001 come out as specified. -/
theorem overflow_flag_spec :
    (∀ (c : CPU) (rd rs rt : Register),
      (c.op_add rd rs rt).flags.overflow =
        ((((c.get_register rs &&& 0x8000) != 0) == ((c.get_register rt &&& 0x8000) != 0)) &&
         (((c.get_register rs &&& 0x8000) != 0) !=
          ((((c.get_register rs + c.get_register rt) % 65536) &&& 0x8000) != 0)))) ∧
    (∀ (c : CPU) (rt : Register) (imm : Int),
      (c.op_add_immediate rt imm).flags.overflow =
        ((((c.get_register rt &&& 0x8000) != 0) == ((int_as_u16 imm &&& 0x8000) != 0)) &&
         (((c.get_register rt &&& 0x8000) != 0) !=
          ((((c.get_register rt + int_as_u16 imm) % 65536) &&& 0x8000) != 0)))) ∧
    (∀ (c : CPU) (rd rs rt : Register),
      (c.op_sub rd rs rt).flags.overflow =
        ((!((c.get_register rs &&& 0x8000) != 0) && (((c.get_register rt &&& 0x8000) != 0) &&
          ((((c.get_register rs + 65536 - c.get_register rt) % 65536) &&& 0x8000) != 0))) ||
         (((c.get_register rs &&& 0x8000) != 0) && (!((c.get_register rt &&& 0x8000) != 0) &&
          !((((c.get_register rs + 65536 - c.get_register rt) % 65536) &&& 0x8000) != 0))))) ∧
    (∀ (c : CPU) (rs rt : Register),
      (c.op_cmp rs rt).flags.overflow =
        ((!((c.get_register rs &&& 0x8000) != 0) && (((c.get_register rt &&& 0x8000) != 0) &&
          ((((c.get_register rs + 65536 - c.get_register rt) % 65536) &&& 0x8000) != 0))) ||
         (((c.get_register rs &&& 0x8000) != 0) && (!((c.get_register rt &&& 0x8000) != 0) &&
          !((((c.get_register rs + 65536 - c.get_register rt) % 65536) &&& 0x8000) != 0))))) ∧
    (∀ (c : CPU) (rt : Register) (imm : Int),
      (c.op_cmp_immediate rt imm).flags.overflow =
        ((!((c.get_register rt &&& 0x8000) != 0) && (((int_as_u16 imm &&& 0x8000) != 0) &&
          ((((c.get_register rt + 65536 - int_as_u16 imm) % 65536) &&& 0x8000) != 0))) ||
         (((c.get_register rt &&& 0x8000) != 0) && (!((int_as_u16 imm &&& 0x8000) != 0) &&
          !((((c.get_register rt + 65536 - int_as_u16 imm) % 65536) &&& 0x8000) != 0))))) ∧
    ((c5a.op_add .R3 .R1 .R2).get_register .R3 = 0x8000 ∧
     (c5a.op_add .R3 .R1 .R2).flags = ⟨false, true, false, true⟩ ∧
     (c5b.op_sub .R3 .R1 .R2).get_register .R3 = 0xFFFF ∧
     (c5b.op_sub .R3 .R1 .R2).flags = ⟨false, true, true, false⟩) := by
  refine ⟨?_, ?_, ?_, ?_, ?_, by decide, by decide, by decide, by decide⟩
  · intro c rd rs rt
    rw [CPU.op_add]
    simp only [overflowing_add, CPU.update_flags_arithmetic, check_overflow]
    generalize ((c.get_register rs &&& 0x8000) != 0) = A
    generalize ((c.get_register rt &&& 0x8000) != 0) = B
    generalize ((((c.get_register rs + c.get_register rt) % 65536) &&& 0x8000) != 0) = R
    cases A <;> cases B <;> cases R <;> rfl
  · intro c rt imm
    rw [CPU.op_add_immediate]
    simp only [overflowing_add, CPU.update_flags_arithmetic, check_overflow]
    generalize ((c.get_register rt &&& 0x8000) != 0) = A
    generalize ((int_as_u16 imm &&& 0x8000) != 0) = B
    generalize ((((c.get_register rt + int_as_u16 imm) % 65536) &&& 0x8000) != 0) = R
    cases A <;> cases B <;> cases R <;> rfl
  · intro c rd rs rt
    rw [CPU.op_sub]
    simp only [overflowing_sub, CPU.update_flags_arithmetic, check_overflow]
    simp only [if_true, Bool.and_assoc]
  · intro c rs rt
    rw [CPU.op_cmp]
    simp only [overflowing_sub, CPU.update_flags_arithmetic, check_overflow]
    simp only [if_true, Bool.and_assoc]
  · intro c rt imm
    rw [CPU.op_cmp_immediate]
    simp only [overflowing_sub, CPU.update_flags_arithmetic, check_overflow]
    simp only [if_true, Bool.and_assoc]

/-! ## C6: get_range -/

/-- C6 counterexample: at start = 0xFFFF, length = 1 we have
start + length = 0x10000, which is not > 0x10000, yet get_range returns an
empty result instead of the one byte stored at 0xFFFF. -/
theorem get_range_counterexample :
    Memory.get_range (fun _ => 7) 0xFFFF 1 = [] ∧ ¬((0xFFFF + 1 : Nat) > 0x10000) := by
  constructor
  · rfl
  · norm_num

/-- C6 amended: get_range returns an empty result iff start + length > 0xFFFF
(not 0x10000) or length = 0; whenever start + length ≤ 0xFFFF it returns
exactly the length bytes stored at start..start+length, never partial data. -/
theorem get_range_spec (m : Memory) (start length : Nat) :
    (m.get_range start length = [] ↔ (start + length > 0xFFFF ∨ length = 0)) ∧
    (start + length ≤ 0xFFFF →
      (m.get_range start length).length = length ∧
      ∀ i, i < length → (m.get_range start length)[i]? = some (m (start + i))) := by
  constructor
  · unfold Memory.get_range
    by_cases h : start + length > 0xFFFF
    · simp [h]
    · simp [h, List.map_eq_nil_iff, List.range_eq_nil]
  · intro h
    unfold Memory.get_range
    rw [if_neg (by omega)]
    constructor
    · simp
    · intro i hi
      simp [List.getElem?_map, List.getElem?_range hi]

theorem get_range_spec_witness :
    ((Memory.get_range (fun _ => 7) 0x10 2 = [] ↔ ((0x10 + 2 : Nat) > 0xFFFF ∨ (2 : Nat) = 0)) ∧
     ((0x10 + 2 : Nat) ≤ 0xFFFF →
       (Memory.get_range (fun _ => 7) 0x10 2).length = 2 ∧
       ∀ i, i < 2 → (Memory.get_range (fun _ => 7) 0x10 2)[i]? = some ((fun _ => 7) (0x10 + i)))) :=
  get_range_spec (fun _ => 7) 0x10 2

/-! ## C7: 12-bit sign extension -/

/-- C7: the 12-bit jump offset is sign-extended with bit 11 as the sign bit
(two's complement), and the три reference values map as specified:
0xFFF ↦ -1, 0x800 ↦ -2048, 0x7FF ↦ +2047. -/
theorem convert_12bit_spec :
    (∀ v, v < 4096 →
      convert_12bit_to_signed v = if v < 2048 then (v : Int) else (v : Int) - 4096) ∧
    convert_12bit_to_signed 0xFFF = -1 ∧
    convert_12bit_to_signed 0x800 = -2048 ∧
    convert_12bit_to_signed 0x7FF = 2047 := by
  refine ⟨?_, by decide, by decide, by decide⟩
  intro v hv
  have hmask : v &&& 0x0FFF = v := by rw [and_fff]; omega
  have hbit : v &&& 0x0800 = v / 2048 % 2 * 2048 := by
    conv_lhs => rw [show (0x0800 : Nat) = 1 <<< 11 from by decide]
    rw [and_shl, and_one, Nat.shiftRight_eq_div_pow, Nat.shiftLeft_eq]
  show (if v &&& 0x0FFF &&& 0x0800 ≠ 0
        then u16_as_i16 ((v &&& 0x0FFF) ||| 0xF000)
        else u16_as_i16 (v &&& 0x0FFF)) = _
  rw [hmask, hbit]
  by_cases hcase : v < 2048
  · rw [if_neg (by omega), if_pos hcase]
    unfold u16_as_i16
    split_ifs with h <;> omega
  · rw [if_pos (by omega), if_neg hcase]
    have hlor : v ||| 0xF000 = 61440 + v := by
      rw [Nat.lor_comm]
      conv_lhs => rw [show (0xF000 : Nat) = 15 <<< 12 from by decide]
      rw [lor_shl_add 15 v 12 (by norm_num; omega)]
      norm_num
    rw [hlor]
    unfold u16_as_i16
    split_ifs with h <;> omega


/-! ## C8: shifts -/

/-- Concrete state with R1 = 0x8000 and R2 = 1. -/
def c8 : CPU :=
  { CPU0 with registers := fun i => if i = 1 then 0x8000 else if i = 2 then 1 else 0 }

/-- C8: when the shift amount (rt masked to 4 bits) is 0, rd := rs and the
flags are left exactly unchanged; when it is nonzero, Carry is the last
shifted-out bit (left: `(value >> (16 - amount)) & 1`, right:
`(value >> (amount - 1)) & 1`); left-shifting 0x8000 by 1 gives 0x0000 with
Carry=true and Zero=true. -/
theorem shift_spec :
    (∀ (c : CPU) (rd rs rt : Register) (op : ShiftOperation),
      rd.isGeneral = true →
      c.get_register rt &&& 0xF = 0 →
      c.op_shift rd rs rt op = c.set_register rd (c.get_register rs) ∧
      (c.op_shift rd rs rt op).flags = c.flags) ∧
    (∀ (c : CPU) (rd rs rt : Register),
      c.get_register rt &&& 0xF ≠ 0 →
      (c.op_shift rd rs rt .Left).flags.carry =
        (((c.get_register rs >>> (16 - (c.get_register rt &&& 0xF))) &&& 1) == 1) ∧
      (c.op_shift rd rs rt .Right).flags.carry =
        (((c.get_register rs >>> ((c.get_register rt &&& 0xF) - 1)) &&& 1) == 1)) ∧
    ((c8.op_shift .R3 .R1 .R2 .Left).get_register .R3 = 0 ∧
     (c8.op_shift .R3 .R1 .R2 .Left).flags.carry = true ∧
     (c8.op_shift .R3 .R1 .R2 .Left).flags.zero = true) := by
  refine ⟨?_, ?_, by decide, by decide, by decide⟩
  · intro c rd rs rt op hrd h
    have hmain : c.op_shift rd rs rt op = c.set_register rd (c.get_register rs) := by
      rw [CPU.op_shift.eq_def, if_pos h]
    exact ⟨hmain, by rw [hmain, set_flags_of_general _ _ _ hrd]⟩
  · intro c rd rs rt h
    constructor
    · rw [CPU.op_shift, if_neg h]
      rfl
    · rw [CPU.op_shift, if_neg h]
      rfl

/-! ## C9: indirect addressing uses the register index -/

/-- C9: LoadIndirect reads the little-endian word at the memory address equal
to rs's register index (0 for R0 … 7 for R7) — not rs's stored contents — into
rd, and StoreIndirect writes rd's value as a word to that index-derived
address. -/
theorem indirect_addressing_spec (c : CPU) (rd rs : Register)
    (hs : rs.isGeneral = true) :
    c.op_load_indirect rd rs =
      .ok (c.set_register rd ((c.mem (rs.idx + 1) <<< 8) ||| c.mem rs.idx)) ∧
    c.op_store_indirect rd rs =
      .ok { c with mem := fun a =>
              if a = rs.idx then (c.get_register rd) &&& 0x00FF
              else if a = rs.idx + 1 then ((c.get_register rd) >>> 8) % 256
              else c.mem a } := by
  have hidx : rs.idx < 8 := by
    cases rs <;> simp_all [Register.idx, Register.isGeneral]
  constructor
  · rw [CPU.op_load_indirect, Memory.read_word, if_neg (by omega)]
  · rw [CPU.op_store_indirect, Memory.write_word, if_neg (by omega)]

theorem indirect_addressing_spec_witness :
    Register.isGeneral .R2 = true ∧
    (CPU0.op_load_indirect .R1 .R2 =
      .ok (CPU0.set_register .R1 ((CPU0.mem (Register.idx .R2 + 1) <<< 8) |||
        CPU0.mem (Register.idx .R2))) ∧
     CPU0.op_store_indirect .R1 .R2 =
      .ok { CPU0 with mem := fun a =>
              if a = Register.idx .R2 then (CPU0.get_register .R1) &&& 0x00FF
              else if a = Register.idx .R2 + 1 then ((CPU0.get_register .R1) >>> 8) % 256
              else CPU0.mem a }) :=
  ⟨rfl, indirect_addressing_spec CPU0 .R1 .R2 rfl⟩

/-! ## C10: the undeclared opcode nibble 0xE -/

/-- C10: a word whose opcode nibble is 0xE decodes (via Word::new's catch-all)
to RType{0,0,0,0,0}, hence Instruction::decode yields Ok(Add R0 R0 R0) rather
than an error; executing that instruction leaves registers, sp and memory
unchanged and sets flags to Zero=true, Negative=false, Carry=false,
Overflow=false; a step fetching such a word just advances pc by 2 and sets
those flags. -/
theorem opcode_e_decodes_as_add (w : Nat) (hw : w / 4096 = 14) :
    Word.new w = Word.RType 0 0 0 0 0 ∧
    Instruction.decode (Word.new w) = .ok (.Add .R0 .R0 .R0) ∧
    (∀ c : CPU, c.execute (.Add .R0 .R0 .R0) =
      .ok { c with flags := ⟨true, false, false, false⟩ }) ∧
    (∀ c : CPU, c.halted = false → c.program_start ≤ c.pc →
      min (c.pc + 2) 0xFFFF ≤ c.program_end →
      c.mem.read_word c.pc = some w →
      c.step = .ok (true, { c with pc := (c.pc + 2) % 65536,
                                   flags := ⟨true, false, false, false⟩ })) := by
  have h1 : Word.new w = Word.RType 0 0 0 0 0 := by
    rw [word_new_arith w]
    have h16 : w / 4096 % 16 = 14 := by omega
    rw [h16]
    norm_num
  have h2 : Instruction.decode (Word.RType 0 0 0 0 0) = .ok (.Add .R0 .R0 .R0) := by
    rfl
  have h3 : ∀ c : CPU, c.execute (.Add .R0 .R0 .R0) =
      .ok { c with flags := ⟨true, false, false, false⟩ } := by
    intro c
    rw [CPU.execute, CPU.op_add]
    simp [CPU.set_register, CPU.update_flags_arithmetic, overflowing_add,
      CPU.get_register, check_overflow]
  refine ⟨h1, by rw [h1, h2], h3, ?_⟩
  intro c hh hb1 hb2 hread
  have hsec : c.secure_boundaries = .ok () := by
    rw [CPU.secure_boundaries, if_neg (by omega)]
  rw [CPU.step, hh]
  rw [if_neg (by simp)]
  simp only [hsec, hread, h1, h2, h3]


theorem convert_12bit_spec_witness :
    (0x123 : Nat) < 4096 ∧
    convert_12bit_to_signed 0x123 =
      (if (0x123 : Nat) < 2048 then ((0x123 : Nat) : Int) else ((0x123 : Nat) : Int) - 4096) :=
  ⟨by norm_num, convert_12bit_spec.1 0x123 (by norm_num)⟩

theorem shift_spec_witness :
    (Register.isGeneral .R3 = true ∧ CPU0.get_register .R2 &&& 0xF = 0 ∧
     (CPU0.op_shift .R3 .R1 .R2 .Left = CPU0.set_register .R3 (CPU0.get_register .R1) ∧
      (CPU0.op_shift .R3 .R1 .R2 .Left).flags = CPU0.flags)) ∧
    (c8.get_register .R2 &&& 0xF ≠ 0 ∧
     ((c8.op_shift .R4 .R1 .R2 .Left).flags.carry =
        (((c8.get_register .R1 >>> (16 - (c8.get_register .R2 &&& 0xF))) &&& 1) == 1) ∧
      (c8.op_shift .R4 .R1 .R2 .Right).flags.carry =
        (((c8.get_register .R1 >>> ((c8.get_register .R2 &&& 0xF) - 1)) &&& 1) == 1))) :=
  ⟨⟨rfl, by decide, shift_spec.1 CPU0 .R3 .R1 .R2 .Left rfl (by decide)⟩,
   ⟨by decide, shift_spec.2.1 c8 .R4 .R1 .R2 (by decide)⟩⟩

/-- Concrete CPU whose program memory holds the single word 0xE000 at pc = 0. -/
def CPUE : CPU := { CPU0 with program_end := 2, mem := fun a => if a = 1 then 0xE0 else 0 }

theorem opcode_e_decodes_as_add_witness :
    (0xE000 : Nat) / 4096 = 14 ∧
    Word.new 0xE000 = Word.RType 0 0 0 0 0 ∧
    Instruction.decode (Word.new 0xE000) = .ok (.Add .R0 .R0 .R0) ∧
    CPUE.halted = false ∧
    CPUE.mem.read_word CPUE.pc = some 0xE000 ∧
    CPUE.step = .ok (true, { CPUE with pc := (CPUE.pc + 2) % 65536,
                                       flags := ⟨true, false, false, false⟩ }) :=
  ⟨by norm_num,
   (opcode_e_decodes_as_add 0xE000 (by norm_num)).1,
   (opcode_e_decodes_as_add 0xE000 (by norm_num)).2.1,
   rfl,
   by decide,
   (opcode_e_decodes_as_add 0xE000 (by norm_num)).2.2.2 CPUE rfl (by decide)
     (by decide) (by decide)⟩

end S16
